import Mathlib

/-!
# Verification of the go-crud-service book CRUD handlers

Shallow embedding of `main.go` of SaidDjapbarov/go-crud-service.

The service stores `Book` rows in a PostgreSQL table `books` with a
`SERIAL PRIMARY KEY` id.  We model the durable state as the list of rows
together with the next value of the id sequence.  Each HTTP handler is
embedded as a pure function from its decoded inputs and the database
state to an HTTP status, a response body, and the new database state.

JSON bodies are modelled by the inductive `Body`.  `encoding/json`
encodes a nil Go slice as `null` and a non-nil slice as an array; the
list handler builds its slice with `var books []Book` plus `append`, so
the slice is nil exactly when no row was scanned.  `goEncodeBookSlice`
reproduces this.
-/

/-- The `Book` record of `main.go` (fields `ID int64`, `Title string`,
`Author string`, `Year int`). -/
structure Book where
  ID : Int
  Title : String
  Author : String
  Year : Int
deriving DecidableEq

/-- Durable state of the `books` table: its rows, in insertion order, and
the next value of the `SERIAL` id sequence. -/
structure DBState where
  rows : List Book
  nextId : Int
deriving DecidableEq

/-- A database state is well formed when the id sequence is ahead of every
stored row, as PostgreSQL `SERIAL` guarantees. -/
def DBState.WF (db : DBState) : Prop :=
  ∀ r ∈ db.rows, r.ID < db.nextId

/-- Response bodies: JSON `null`, a JSON array of books, a single JSON
book, or a plain-text message (error texts produced with `http.Error` or
`fmt.Fprintf`; the dynamic parts interpolated by `%v`/`%d` are kept
abstract in the text). -/
inductive Body where
  | jsonNull : Body
  | jsonArr : List Book → Body
  | jsonBook : Book → Body
  | text : String → Body
deriving DecidableEq

/-- `encoding/json` encoding of the slice built by the `getAllBooks`
loop: the slice starts as nil (`var books []Book`) and becomes non-nil
exactly when at least one row is appended; a nil slice encodes as
`null`, a non-empty slice as a JSON array. -/
def goEncodeBookSlice (books : List Book) : Body :=
  if books.isEmpty then Body.jsonNull else Body.jsonArr books

/-- `createBook` (main.go:109-138) after the JSON decode succeeded: `b` is
the decoded request body (Go's decoder fills absent fields with zero
values).  Empty `Title` or `Author` is rejected with 400 before any SQL
runs; otherwise the row is inserted with a database-generated id
(`INSERT ... RETURNING id`), which is scanned back into `b.ID`, and the
resulting book is encoded as the 200 response. -/
def createBook (b : Book) (db : DBState) : (Nat × Body) × DBState :=
  if b.Title = "" ∨ b.Author = "" then
    ((400, Body.text ("Не хватает полей Title или Author")), db)
  else
    let created : Book := { b with ID := db.nextId }
    ((200, Body.jsonBook created),
      { rows := db.rows ++ [created], nextId := db.nextId + 1 })

/-- `getBookByID` (main.go:169-193) after the id was parsed from the URL:
`SELECT ... WHERE id = $1` returns the (by `SERIAL` uniqueness, at most
one) row with this id, `sql.ErrNoRows` becomes a 404. -/
def getBookByID (id : Int) (db : DBState) : Nat × Body :=
  match db.rows.find? (fun r => r.ID == id) with
  | none => (404, Body.text ("Книга не найдена"))
  | some b => (200, Body.jsonBook b)

/-- `updateBookByID` (main.go:196-229) after the id was parsed and the
JSON body decoded: `UPDATE books SET title=$1, author=$2, year=$3 WHERE
id=$4` overwrites the three non-id columns of every row with this id;
if `RowsAffected` is 0 the handler answers 404, otherwise 200 with a
plain-text confirmation.  No field-emptiness check is performed. -/
def updateBookByID (id : Int) (b : Book) (db : DBState) : (Nat × Body) × DBState :=
  let newRows := db.rows.map (fun r =>
    if r.ID == id then { r with Title := b.Title, Author := b.Author, Year := b.Year } else r)
  let affected := (db.rows.filter (fun r => r.ID == id)).length
  let db' : DBState := { db with rows := newRows }
  if affected = 0 then
    ((404, Body.text ("Книга с таким ID не найдена")), db')
  else
    ((200, Body.text ("Книга успешно обновлена")), db')

/-!
## The list handler and the `sql.Rows` iterator

`getAllBooks` (main.go:141-166) iterates a `sql.Rows` cursor.  `Next`
returns false either at the normal end of the result set or when an
iteration error occurred; the handler never calls `rows.Err()`, so the
two are indistinguishable to it.  `QueryRows` records what the cursor
yielded: the successive rows `Next` produced (each `Option Book`; `none`
models a row on which `Scan` fails) and whether iteration stopped early
with an error.
-/

/-- Result of the `SELECT id, title, author, year FROM books` cursor:
the rows yielded by successive `rows.Next()` calls (with `none` for a
row whose `Scan` errors) and whether `rows.Next()` returned false
because of an iteration error (`rows.Err() != nil`). -/
structure QueryRows where
  cells : List (Option Book)
  earlyError : Bool
deriving DecidableEq

/-- The `for rows.Next()` loop of `getAllBooks`: scan each row in order,
aborting with an error on the first failing `Scan`. -/
def scanLoop : List (Option Book) → Except Unit (List Book)
  | [] => Except.ok []
  | none :: _ => Except.error ()
  | some b :: rest => (scanLoop rest).map (fun bs => b :: bs)

/-- `getAllBooks` (main.go:141-166) on the outcome of the query: a failed
`QueryContext` gives 500; a failed `Scan` gives 500; otherwise the
scanned books are encoded as the 200 response.  `earlyError` is never
inspected because the code never calls `rows.Err()`. -/
def getAllBooks (q : Except Unit QueryRows) : Nat × Body :=
  match q with
  | Except.error _ => (500, Body.text ("Ошибка выборки книг"))
  | Except.ok r =>
    match scanLoop r.cells with
    | Except.error _ => (500, Body.text ("Ошибка чтения строки"))
    | Except.ok books => (200, goEncodeBookSlice books)

/-- The cursor a healthy database produces for `SELECT ... FROM books`:
every stored row is yielded, every scan succeeds, no iteration error. -/
def queryAll (db : DBState) : Except Unit QueryRows :=
  Except.ok { cells := db.rows.map some, earlyError := false }

/-!
## The path-ID extractor

`parseIDFromURL` (main.go:260-269) splits the URL path with `splitPath`
(main.go:273-282) and parses the third component with
`fmt.Sscan(parts[2], &id)` for an `int64` operand.  `splitPath` slices
the path as `path[len("/books/"):]`, which panics when the path is
shorter than the literal; the `Option` result models that panic (`none`)
against normal return (`some`).  The paths reaching these functions are
ASCII up to index 7 whenever they carry the `/books/` route, so Go's
byte indices and our rune indices agree there.

`fmt.Sscan` scanning of a single `int64` operand (verb `v`): skip
leading white space, fail on end of input, accept an optional sign,
recognise the base marks `0b`/`0o`/`0x` and a bare leading `0` (octal),
take the longest run of digits of that base (underscores included), and
hand the collected token to `strconv.ParseInt(tok, 0, 64)`.  The scan
stops at the first character outside the digit set without raising an
error, so trailing characters such as `/456` are simply left unread.
-/

/-- The white-space runes `fmt`'s scanner skips (its `space` table). -/
def isGoSpace (c : Char) : Bool :=
  (0x9 ≤ c.toNat && c.toNat ≤ 0xD) || c.toNat == 0x20 || c.toNat == 0x85 ||
  c.toNat == 0xA0 || c.toNat == 0x1680 ||
  (0x2000 ≤ c.toNat && c.toNat ≤ 0x200A) || c.toNat == 0x2028 ||
  c.toNat == 0x2029 || c.toNat == 0x202F || c.toNat == 0x205F || c.toNat == 0x3000

/-- Decimal digit. -/
def isDec (c : Char) : Bool := 48 ≤ c.toNat && c.toNat ≤ 57

/-- Octal digit. -/
def isOct (c : Char) : Bool := 48 ≤ c.toNat && c.toNat ≤ 55

/-- Binary digit. -/
def isBin (c : Char) : Bool := c == '0' || c == '1'

/-- Hexadecimal digit (either case). -/
def isHexDigit (c : Char) : Bool :=
  isDec c || (97 ≤ c.toNat && c.toNat ≤ 102) || (65 ≤ c.toNat && c.toNat ≤ 70)

/-- The digit value `strconv` assigns to a byte: `0`-`9`, then letters
from 10 upward (`lower(c) - 'a' + 10`); the caller rejects values `≥`
the base. -/
def charDigit (c : Char) : Option Nat :=
  if 48 ≤ c.toNat ∧ c.toNat ≤ 57 then some (c.toNat - 48)
  else if 97 ≤ c.toNat ∧ c.toNat ≤ 122 then some (c.toNat - 97 + 10)
  else if 65 ≤ c.toNat ∧ c.toNat ≤ 90 then some (c.toNat - 65 + 10)
  else none

/-- The digit loop of `strconv.ParseUint` with inferred base: underscores
are skipped (recorded in the flag), any other non-digit or a digit `≥`
base is a syntax error, digits accumulate most-significant first. -/
def goDigits (base : Nat) : Nat → Bool → List Char → Option (Nat × Bool)
  | acc, saw, [] => some (acc, saw)
  | acc, saw, c :: cs =>
    if c == '_' then goDigits base acc true cs
    else
      match charDigit c with
      | none => none
      | some d => if d < base then goDigits base (base * acc + d) saw cs else none

/-- One step of `strconv`'s `underscoreOK` walk.  The state rune is `^`
at the start of the number, `0` after a digit or base mark, `_` after an
underscore and `!` after any other byte; an underscore is legal only in
state `0`, and the number must not end in state `_`. -/
def underscoreLoop (hex : Bool) (saw : Char) : List Char → Bool
  | [] => saw != '_'
  | c :: cs =>
    if isDec c || (hex && (97 ≤ c.toNat && c.toNat ≤ 102)) then underscoreLoop hex '0' cs
    else if c == '_' then (if saw == '0' then underscoreLoop hex '_' cs else false)
    else if saw == '_' then false
    else underscoreLoop hex '!' cs

/-- `underscoreOK` after the sign: a base mark `0b`/`0o`/`0x` (either
case) counts as a digit, then the rest is walked. -/
def underscoreOKBody : List Char → Bool
  | '0' :: c :: r =>
    if c == 'b' || c == 'B' || c == 'o' || c == 'O' || c == 'x' || c == 'X' then
      underscoreLoop (c == 'x' || c == 'X') '0' r
    else underscoreLoop false '^' ('0' :: c :: r)
  | t => underscoreLoop false '^' t

/-- `strconv`'s `underscoreOK` over the whole token: skip a sign, then
walk the body. -/
def underscoreOK (t : List Char) : Bool :=
  match t with
  | '-' :: r => underscoreOKBody r
  | '+' :: r => underscoreOKBody r
  | r => underscoreOKBody r

/-- End of `strconv.ParseInt(tok, 0, 64)` after base detection: run the
digit loop, reject ill-placed underscores, reject values outside the
`int64` range (`ParseUint`'s overflow and `ParseInt`'s cutoff both
surface as errors through `Sscan`), and apply the sign. -/
def runDigits (neg : Bool) (base : Nat) (s : List Char) (tok : List Char) : Except Unit Int :=
  match goDigits base 0 false s with
  | none => Except.error ()
  | some (n, sawU) =>
    if sawU = true ∧ underscoreOK tok = false then Except.error ()
    else if neg = false ∧ 2 ^ 63 ≤ n then Except.error ()
    else if neg = true ∧ 2 ^ 63 < n then Except.error ()
    else Except.ok (if neg then -(n : Int) else (n : Int))

/-- Base detection of `strconv.ParseUint` with base 0 after a leading
`0`: `0b`/`0o`/`0x` (either case, and only with at least one byte after
the mark) select 2/8/16, any other leading `0` selects octal. -/
def parseUintZero (neg : Bool) (rest : List Char) (tok : List Char) : Except Unit Int :=
  match rest with
  | b :: d :: r2 =>
    if b == 'b' || b == 'B' then runDigits neg 2 (d :: r2) tok
    else if b == 'o' || b == 'O' then runDigits neg 8 (d :: r2) tok
    else if b == 'x' || b == 'X' then runDigits neg 16 (d :: r2) tok
    else runDigits neg 8 (b :: d :: r2) tok
  | rest2 => runDigits neg 8 rest2 tok

/-- Base detection of `strconv.ParseUint` with base 0 (after the sign):
a leading `0` goes through the mark detection, otherwise the number is
decimal; an empty number is a syntax error. -/
def parseUintTop (neg : Bool) (s : List Char) (tok : List Char) : Except Unit Int :=
  match s with
  | [] => Except.error ()
  | c :: rest =>
    if c == '0' then parseUintZero neg rest tok
    else runDigits neg 10 (c :: rest) tok

/-- `strconv.ParseInt(tok, 0, 64)`: empty input errors, the sign is
stripped and remembered, the rest goes through base detection. -/
def parseIntBase0 (tok : List Char) : Except Unit Int :=
  match tok with
  | [] => Except.error ()
  | c :: r =>
    if c == '-' then parseUintTop true r tok
    else if c == '+' then parseUintTop false r tok
    else parseUintTop false (c :: r) tok

/-- Close the scan of the number token: the token is the sign, the
consumed base mark and the longest run of set digits (with underscores);
`ParseInt` then judges it. -/
def finishTok (sgn pre : List Char) (dset : Char → Bool) (rest : List Char) : Except Unit Int :=
  parseIntBase0 (sgn ++ pre ++ rest.takeWhile (fun c => dset c || c == '_'))

/-- `fmt`'s `scanBasePrefix` for verb `v` after a leading `0` was
accepted: a lowercase `b`/`o`/`x` selects the matching digit set, else
the `0` alone selects octal digits; in every case digits may be absent
(`haveDigits` is true). -/
def scanZero (sgn : List Char) : List Char → Except Unit Int
  | 'b' :: rest => finishTok sgn ('0' :: 'b' :: []) isBin rest
  | 'o' :: rest => finishTok sgn ('0' :: 'o' :: []) isOct rest
  | 'x' :: rest => finishTok sgn ('0' :: 'x' :: []) isHexDigit rest
  | rest => finishTok sgn ('0' :: []) isOct rest

/-- `fmt`'s `scanInt` after the sign: end of input is an error; a `0`
goes through the base-mark scan; otherwise the first character must be a
decimal digit or underscore (`scanNumber` with `haveDigits = false`),
else the scanner reports `expected integer`. -/
def scanAfterSign (sgn : List Char) : List Char → Except Unit Int
  | [] => Except.error ()
  | c :: rest =>
    if c == '0' then scanZero sgn rest
    else if isDec c || c == '_' then finishTok sgn [] isDec (c :: rest)
    else Except.error ()

/-- `fmt`'s `scanInt` entry: after `SkipSpace`, end of input is an
error, then an optional sign is accepted into the token. -/
def scanStart : List Char → Except Unit Int
  | [] => Except.error ()
  | c :: cs =>
    if c == '+' || c == '-' then scanAfterSign (c :: []) cs
    else scanAfterSign [] (c :: cs)

/-- `fmt.Sscan(s, &id)` for a single `int64` operand: leading white
space is skipped, then one integer is scanned; unread trailing input is
not an error. -/
def sscanInt64 (s : String) : Except Unit Int :=
  scanStart (s.data.dropWhile isGoSpace)

/-- `splitPath` (main.go:273-282): returns `["", "books", path[7:]]`.
The slice `path[len("/books/"):]` panics (modelled `none`) when the path
is shorter than 7 characters. -/
def splitPath (path : String) : Option (List String) :=
  if 7 ≤ path.length then
    some (("" : String) :: ("books" : String) :: String.mk (path.data.drop 7) :: [])
  else none

/-- `parseIDFromURL` (main.go:260-269): split the path, answer an error
when fewer than 3 parts came back, otherwise `Sscan` the third part.
`none` propagates `splitPath`'s panic. -/
def parseIDFromURL (path : String) : Option (Except Unit Int) :=
  (splitPath path).map (fun parts =>
    if parts.length < 3 then Except.error ()
    else sscanInt64 (parts.getD 2 ("" : String)))

/-!
## Helper lemmas
-/

/-- Scanning a block of good rows followed by a tail behaves as scanning
the tail and prepending the good rows. -/
theorem scanLoop_append_some (bs : List Book) (tail : List (Option Book)) :
    scanLoop (bs.map some ++ tail) = (scanLoop tail).map (fun l => bs ++ l) := by
  induction bs with
  | nil => cases h : scanLoop tail <;> simp [Except.map, h]
  | cons b bs ih =>
    cases h : scanLoop tail <;>
      simp [scanLoop, ih, Except.map, h]

/-- Sample book used by the witnesses. -/
def bookT : Book := { ID := 0, Title := "Golang Book", Author := "John Doe", Year := 2023 }

/-- Empty table whose id sequence starts at 1. -/
def db0 : DBState := { rows := [], nextId := 1 }

/-- Table holding one book with id 1. -/
def db1 : DBState :=
  { rows := [{ ID := 1, Title := "Golang Book", Author := "John Doe", Year := 2023 }],
    nextId := 2 }

/-!
## Claims
-/

/-- C1 (counterexample): on an empty table the list handler does NOT
answer with a JSON empty array: the nil slice is encoded, which gives
JSON `null`. -/
theorem getAllBooks_empty_not_array :
    getAllBooks (queryAll db0) ≠ (200, Body.jsonArr []) ∧
    getAllBooks (queryAll db0) = (200, Body.jsonNull) := by
  constructor
  · decide
  · rfl

/-- C1 (amended): when the books table contains zero rows, the list
handler responds 200 with JSON `null` as the body (Go's `encoding/json`
renders the never-appended-to nil slice as `null`), not an empty
array. -/
theorem getAllBooks_empty_null (db : DBState) (h : db.rows = []) :
    getAllBooks (queryAll db) = (200, Body.jsonNull) := by
  simp [getAllBooks, queryAll, scanLoop, goEncodeBookSlice, h]

/-- C1 witness. -/
theorem getAllBooks_empty_null_witness :
    getAllBooks (queryAll db0) = (200, Body.jsonNull) :=
  getAllBooks_empty_null db0 (by rfl)

/-- C2: a create request whose decoded body has an empty title or an
empty author is answered 400 and the table is left untouched — the
insert statement is never reached. -/
theorem createBook_emptyField_400 (b : Book) (db : DBState)
    (h : b.Title = "" ∨ b.Author = "") :
    createBook b db = ((400, Body.text ("Не хватает полей Title или Author")), db) := by
  unfold createBook
  rw [if_pos h]

/-- C2 witness. -/
theorem createBook_emptyField_400_witness :
    createBook { ID := 0, Title := "", Author := "John Doe", Year := 2023 } db1 =
      ((400, Body.text ("Не хватает полей Title или Author")), db1) :=
  createBook_emptyField_400 _ db1 (Or.inl rfl)

/-- C3: an update request whose id matches no stored row is answered 404
and the table after the request is identical to the table before it. -/
theorem updateBookByID_missing_404 (id : Int) (b : Book) (db : DBState)
    (h : ∀ r ∈ db.rows, r.ID ≠ id) :
    updateBookByID id b db = ((404, Body.text ("Книга с таким ID не найдена")), db) := by
  have hfilter : db.rows.filter (fun r => r.ID == id) = [] :=
    List.filter_eq_nil_iff.2 (fun r hr => by simp [h r hr])
  have hmap : db.rows.map (fun r =>
      if r.ID == id then { r with Title := b.Title, Author := b.Author, Year := b.Year }
      else r) = db.rows := by
    have : db.rows.map (fun r =>
        if r.ID == id then { r with Title := b.Title, Author := b.Author, Year := b.Year }
        else r) = db.rows.map (fun r => r) :=
      List.map_congr_left (fun r hr => by simp [h r hr])
    simpa using this
  simp only [updateBookByID]
  rw [hfilter, hmap]
  simp

/-- C3 witness. -/
theorem updateBookByID_missing_404_witness :
    updateBookByID 999999 bookT db1 =
      ((404, Body.text ("Книга с таким ID не найдена")), db1) :=
  updateBookByID_missing_404 999999 bookT db1 (by decide)

/-- C4: after a successful create, reading back the id that create
returned yields 200 with a book carrying exactly the submitted title,
author and year. -/
theorem createBook_then_getBookByID (b : Book) (db : DBState)
    (hwf : DBState.WF db) (ht : b.Title ≠ "") (ha : b.Author ≠ "") :
    ∃ created : Book,
      (createBook b db).1 = (200, Body.jsonBook created) ∧
      getBookByID created.ID (createBook b db).2 = (200, Body.jsonBook created) ∧
      created.Title = b.Title ∧ created.Author = b.Author ∧ created.Year = b.Year := by
  refine ⟨{ b with ID := db.nextId }, ?_, ?_, rfl, rfl, rfl⟩
  · simp [createBook, ht, ha]
  · have hnone : db.rows.find? (fun r => r.ID == db.nextId) = none := by
      refine List.find?_eq_none.2 (fun r hr => ?_)
      have := hwf r hr
      simp only [beq_iff_eq]
      omega
    simp [createBook, ht, ha, getBookByID, List.find?_append, hnone, List.find?]

/-- C4 witness. -/
theorem createBook_then_getBookByID_witness :
    ∃ created : Book,
      (createBook bookT db0).1 = (200, Body.jsonBook created) ∧
      getBookByID created.ID (createBook bookT db0).2 = (200, Body.jsonBook created) ∧
      created.Title = bookT.Title ∧ created.Author = bookT.Author ∧
      created.Year = bookT.Year :=
  createBook_then_getBookByID bookT db0 (by intro r hr; simp [db0] at hr)
    (by decide) (by decide)

/-- C5: a create request with non-empty title and author is answered 200
with the JSON encoding of the created book: its id is the
database-generated identifier (the next value of the sequence) and its
title, author and year are the request's values; the row is appended to
the table. -/
theorem createBook_success_response (b : Book) (db : DBState)
    (ht : b.Title ≠ "") (ha : b.Author ≠ "") :
    ∃ bk : Book,
      createBook b db =
        ((200, Body.jsonBook bk),
          { rows := db.rows ++ [bk], nextId := db.nextId + 1 }) ∧
      bk.ID = db.nextId ∧ bk.Title = b.Title ∧ bk.Author = b.Author ∧ bk.Year = b.Year := by
  refine ⟨{ b with ID := db.nextId }, ?_, rfl, rfl, rfl, rfl⟩
  simp [createBook, ht, ha]

/-- C5 witness. -/
theorem createBook_success_response_witness :
    ∃ bk : Book,
      createBook bookT db0 =
        ((200, Body.jsonBook bk),
          { rows := db0.rows ++ [bk], nextId := db0.nextId + 1 }) ∧
      bk.ID = db0.nextId ∧ bk.Title = bookT.Title ∧ bk.Author = bookT.Author ∧
      bk.Year = bookT.Year :=
  createBook_success_response bookT db0 (by decide) (by decide)

/-- C8: the update handler never rejects a decoded body for empty
fields: whatever the decoded book is (empty title or author included),
the status is 200 or 404 — never 400 —, it is 200 exactly when some row
carries the id, and all three non-id fields of every matching row are
overwritten with the request's values. -/
theorem updateBookByID_no_field_check (id : Int) (b : Book) (db : DBState) :
    (updateBookByID id b db).1.1 ≠ 400 ∧
    ((updateBookByID id b db).1.1 = 200 ∨ (updateBookByID id b db).1.1 = 404) ∧
    ((updateBookByID id b db).1.1 = 200 ↔ ∃ r ∈ db.rows, r.ID = id) ∧
    (updateBookByID id b db).2.rows = db.rows.map (fun r =>
      if r.ID == id then { r with Title := b.Title, Author := b.Author, Year := b.Year }
      else r) := by
  by_cases h : (db.rows.filter (fun r => r.ID == id)).length = 0
  · have hnone : ¬ ∃ r ∈ db.rows, r.ID = id := by
      rw [List.length_eq_zero] at h
      rcases List.filter_eq_nil_iff.1 h with hall
      rintro ⟨r, hr, hid⟩
      exact hall r hr (by simp [hid])
    simp [updateBookByID, h, hnone]
  · have hsome : ∃ r ∈ db.rows, r.ID = id := by
      rcases List.length_pos.1 (Nat.pos_of_ne_zero h) with -
      have hne : db.rows.filter (fun r => r.ID == id) ≠ [] := by
        intro hnil; exact h (by simp [hnil])
      rcases List.exists_mem_of_ne_nil _ hne with ⟨r, hr⟩
      have hmem := List.mem_filter.1 hr
      exact ⟨r, hmem.1, by simpa using hmem.2⟩
    simp [updateBookByID, h, hsome]

/-- C8 witness: an update with empty title and empty author still goes
through (200) and overwrites the stored row's fields. -/
theorem updateBookByID_no_field_check_witness :
    (updateBookByID 1 { ID := 0, Title := "", Author := "", Year := 0 } db1).1.1 ≠ 400 ∧
    ((updateBookByID 1 { ID := 0, Title := "", Author := "", Year := 0 } db1).1.1 = 200 ∨
      (updateBookByID 1 { ID := 0, Title := "", Author := "", Year := 0 } db1).1.1 = 404) ∧
    ((updateBookByID 1 { ID := 0, Title := "", Author := "", Year := 0 } db1).1.1 = 200 ↔
      ∃ r ∈ db1.rows, r.ID = 1) ∧
    (updateBookByID 1 { ID := 0, Title := "", Author := "", Year := 0 } db1).2.rows =
      db1.rows.map (fun r =>
        if r.ID == 1 then { r with Title := "", Author := "", Year := 0 } else r) :=
  updateBookByID_no_field_check 1 { ID := 0, Title := "", Author := "", Year := 0 } db1

/-- C9: the id a client puts into the create body is ignored: the
handler's full outcome is unchanged under any replacement of the decoded
id, and on success the id of the answered book is the
database-generated one. -/
theorem createBook_ignores_client_id (b : Book) (x : Int) (db : DBState) :
    createBook { b with ID := x } db = createBook b db ∧
    (b.Title ≠ "" → b.Author ≠ "" →
      ∃ bk : Book, (createBook b db).1 = (200, Body.jsonBook bk) ∧ bk.ID = db.nextId) := by
  constructor
  · rfl
  · intro ht ha
    exact ⟨{ b with ID := db.nextId }, by simp [createBook, ht, ha], rfl⟩

/-- C9 witness. -/
theorem createBook_ignores_client_id_witness :
    createBook { bookT with ID := 424242 } db0 = createBook bookT db0 ∧
    (bookT.Title ≠ "" → bookT.Author ≠ "" →
      ∃ bk : Book, (createBook bookT db0).1 = (200, Body.jsonBook bk) ∧
        bk.ID = db0.nextId) :=
  createBook_ignores_client_id bookT 424242 db0

/-- C10: the list handler never checks `rows.Err()`: when iteration
stops early with an error after some rows scanned, the response is still
200 carrying exactly the rows scanned so far; a 500 arises only from a
failed query or from a failed scan of an individual row. -/
theorem getAllBooks_ignores_iter_error (bs : List Book) (rest : List (Option Book)) :
    getAllBooks (Except.ok { cells := bs.map some, earlyError := true }) =
      (200, goEncodeBookSlice bs) ∧
    getAllBooks (Except.error ()) = (500, Body.text ("Ошибка выборки книг")) ∧
    getAllBooks (Except.ok { cells := bs.map some ++ none :: rest, earlyError := false }) =
      (500, Body.text ("Ошибка чтения строки")) := by
  refine ⟨?_, rfl, ?_⟩
  · have h : scanLoop (bs.map some) = Except.ok bs := by
      have h0 := scanLoop_append_some bs []
      simpa [scanLoop, Except.map] using h0
    simp [getAllBooks, h]
  · have h := scanLoop_append_some bs (none :: rest)
    simp [getAllBooks, h, scanLoop, Except.map]

/-!
## Path-extractor lemmas
-/

/-- Decimal value of a digit string, most-significant digit first. -/
def decValNat (l : List Char) : Nat := l.foldl (fun a c => 10 * a + (c.toNat - 48)) 0

/-- A decimal digit is not scanner white space. -/
theorem isDec_not_space (c : Char) (h : isDec c = true) : isGoSpace c = false := by
  simp only [isDec, Bool.and_eq_true, decide_eq_true_eq] at h
  simp only [isGoSpace, Bool.or_eq_false_iff, Bool.and_eq_false_iff,
    decide_eq_false_iff_not, Nat.not_le, beq_eq_false_iff_ne, ne_eq]
  omega

/-- `takeWhile` keeps a list all of whose elements satisfy the predicate. -/
theorem takeWhile_all {α : Type} (p : α → Bool) (l : List α) (h : ∀ x ∈ l, p x = true) :
    l.takeWhile p = l := by
  induction l with
  | nil => rfl
  | cons a l ih =>
    rw [List.takeWhile_cons, if_pos (h a (List.mem_cons_self a l)),
      ih (fun x hx => h x (List.mem_cons_of_mem a hx))]

/-- On a pure decimal-digit string the `ParseUint` digit loop returns the
decimal value and sees no underscore. -/
theorem goDigits_dec (l : List Char) (h : ∀ x ∈ l, isDec x = true) (acc : Nat) :
    goDigits 10 acc false l =
      some (l.foldl (fun a c => 10 * a + (c.toNat - 48)) acc, false) := by
  induction l generalizing acc with
  | nil => rfl
  | cons c cs ih =>
    obtain ⟨hlo, hhi⟩ : 48 ≤ c.toNat ∧ c.toNat ≤ 57 := by
      simpa [isDec, Bool.and_eq_true, decide_eq_true_eq] using h c (List.mem_cons_self c cs)
    have hund : (c == '_') = false :=
      beq_eq_false_iff_ne.2 (fun he => by subst he; exact absurd hhi (by decide))
    have hcd : charDigit c = some (c.toNat - 48) := by
      unfold charDigit
      rw [if_pos ⟨hlo, hhi⟩]
    have hlt : c.toNat - 48 < 10 := by omega
    rw [goDigits, hund]
    simp only [Bool.false_eq_true, if_false, hcd, if_pos hlt]
    exact ih (fun x hx => h x (List.mem_cons_of_mem c hx)) _

/-- `Sscan` of a decimal string with a non-zero leading digit yields its
decimal value when it fits in `int64`. -/
theorem sscanInt64_decimal (c : Char) (cs : List Char)
    (hall : ∀ x ∈ c :: cs, isDec x = true) (h0 : c ≠ '0')
    (hrange : decValNat (c :: cs) < 2 ^ 63) :
    sscanInt64 (String.mk (c :: cs)) = Except.ok ((decValNat (c :: cs) : Int)) := by
  have hc := hall c (List.mem_cons_self c cs)
  obtain ⟨hlo, hhi⟩ : 48 ≤ c.toNat ∧ c.toNat ≤ 57 := by
    simpa [isDec, Bool.and_eq_true, decide_eq_true_eq] using hc
  have hspace : isGoSpace c = false := isDec_not_space c hc
  have hplus : (c == '+') = false :=
    beq_eq_false_iff_ne.2 (fun he => by subst he; exact absurd hlo (by decide))
  have hminus : (c == '-') = false :=
    beq_eq_false_iff_ne.2 (fun he => by subst he; exact absurd hlo (by decide))
  have hzero : (c == '0') = false := beq_eq_false_iff_ne.2 h0
  have htake : (c :: cs).takeWhile (fun x => isDec x || x == '_') = c :: cs :=
    takeWhile_all _ _ (fun x hx => by simp [hall x hx])
  have hgo := goDigits_dec (c :: cs) hall 0
  have hnotle : ¬ (2 ^ 63 ≤ decValNat (c :: cs)) := by omega
  have h1 : sscanInt64 (String.mk (c :: cs)) = scanStart ((c :: cs).dropWhile isGoSpace) := rfl
  rw [h1, List.dropWhile_cons, if_neg (by simp [hspace])]
  rw [scanStart, hplus, hminus]
  simp only [Bool.or_self, Bool.false_eq_true, if_false]
  rw [scanAfterSign, hzero]
  simp only [Bool.false_eq_true, if_false, hc, Bool.true_or, if_pos]
  rw [finishTok, htake]
  simp only [List.nil_append]
  rw [parseIntBase0, hminus]
  simp only [Bool.false_eq_true, if_false, hplus]
  rw [parseUintTop, hzero]
  simp only [Bool.false_eq_true, if_false]
  rw [runDigits]
  rw [show goDigits 10 0 false (c :: cs) =
    some (decValNat (c :: cs), false) from hgo]
  have h2pow : (2 : Nat) ^ 63 = 9223372036854775808 := by norm_num
  rw [h2pow] at hrange
  simp [hnotle, hrange]

/-- `Sscan` errors when the first non-space character can open no
number: not a digit, sign or underscore. -/
theorem sscanInt64_nonNumeric (c : Char) (cs : List Char)
    (hsp : isGoSpace c = false) (hdec : isDec c = false)
    (hplus : c ≠ '+') (hminus : c ≠ '-') (hund : c ≠ '_') :
    sscanInt64 (String.mk (c :: cs)) = Except.error () := by
  have hz : (c == '0') = false :=
    beq_eq_false_iff_ne.2 (fun he => by subst he; exact absurd hdec (by decide))
  have h1 : sscanInt64 (String.mk (c :: cs)) = scanStart ((c :: cs).dropWhile isGoSpace) := rfl
  rw [h1, List.dropWhile_cons, if_neg (by simp [hsp])]
  rw [scanStart, beq_eq_false_iff_ne.2 hplus, beq_eq_false_iff_ne.2 hminus]
  simp only [Bool.or_self, Bool.false_eq_true, if_false]
  rw [scanAfterSign, hz]
  simp only [Bool.false_eq_true, if_false, hdec, beq_eq_false_iff_ne.2 hund,
    Bool.or_self, if_false]

/-- `splitPath` on a path of the `/books/` route: the slice is in
bounds, and the breakdown is the fixed three-element one. -/
theorem splitPath_append (rest : String) :
    splitPath (("/books/" : String) ++ rest) =
      some (("" : String) :: ("books" : String) :: rest :: []) := by
  have hdata : (("/books/" : String) ++ rest).data = ("/books/" : String).data ++ rest.data :=
    String.data_append _ _
  have hlen7 : ("/books/" : String).data.length = 7 := rfl
  have hlen : 7 ≤ (("/books/" : String) ++ rest).length := by
    have : (("/books/" : String) ++ rest).length = 7 + rest.data.length := by
      show (("/books/" : String) ++ rest).data.length = 7 + rest.data.length
      rw [hdata, List.length_append, hlen7]
    omega
  have hdrop : ((("/books/" : String) ++ rest).data).drop 7 = rest.data := by
    rw [hdata, ← hlen7]
    exact List.drop_left _ _
  unfold splitPath
  rw [if_pos hlen, hdrop]

/-- `parseIDFromURL` on a path of the `/books/` route hands the suffix
to `Sscan`; the fewer-than-3-parts branch is unreachable. -/
theorem parseIDFromURL_append (rest : String) :
    parseIDFromURL (("/books/" : String) ++ rest) = some (sscanInt64 rest) := by
  rw [parseIDFromURL, splitPath_append]
  rfl

/-- C7: on every path that extends the `/books/` route the manual slice
of `splitPath` is in bounds (no panic) and produces exactly the
3-element breakdown `["", "books", rest]`, so `parseIDFromURL` never
takes its too-few-parts error branch and always scans the suffix. -/
theorem splitPath_total_three_parts (path rest : String)
    (h : path = ("/books/" : String) ++ rest) :
    splitPath path = some (("" : String) :: ("books" : String) :: rest :: []) ∧
    parseIDFromURL path = some (sscanInt64 rest) := by
  subst h
  exact ⟨splitPath_append rest, parseIDFromURL_append rest⟩

/-- C7 witness. -/
theorem splitPath_total_three_parts_witness :
    splitPath ("/books/123") =
      some (("" : String) :: ("books" : String) :: ("123" : String) :: []) ∧
    parseIDFromURL ("/books/123") = some (sscanInt64 ("123")) :=
  splitPath_total_three_parts ("/books/123") ("123") (by rfl)

/-- C6 (counterexample): a suffix with an extra path segment, or with a
trailing slash, does NOT fail integer parsing: `fmt.Sscan` stops at the
first `/` without error and the extractor returns the leading number. -/
theorem parseIDFromURL_extra_segment_ok :
    parseIDFromURL ("/books/123/456") = some (Except.ok 123) ∧
    parseIDFromURL ("/books/123/") = some (Except.ok 123) ∧
    parseIDFromURL ("/books/123/456") ≠ some (Except.error ()) := by
  refine ⟨by rfl, by rfl, ?_⟩
  intro h
  rw [show parseIDFromURL ("/books/123/456") = some (Except.ok 123) from rfl] at h
  exact absurd (Option.some.inj h) (by simp)

/-- C6 (amended): the extractor scans the suffix with Go's `fmt.Sscan`
semantics.  A suffix consisting of decimal digits (leading digit
non-zero, value within `int64`) parses to its decimal value; a suffix
whose first character can open no number (not a digit, sign or
underscore) is an error; but a suffix that merely CONTAINS trailing
slashes or extra segments after a leading number parses successfully to
that number — the extra characters are swallowed into the ID segment
yet left unread by the scan, not turned into a parse failure; a leading
zero switches the scan to octal. -/
theorem parseIDFromURL_scan_behavior :
    (∀ (c : Char) (cs : List Char), (∀ x ∈ c :: cs, isDec x = true) → c ≠ '0' →
      decValNat (c :: cs) < 2 ^ 63 →
      parseIDFromURL (("/books/" : String) ++ String.mk (c :: cs)) =
        some (Except.ok ((decValNat (c :: cs) : Int)))) ∧
    (∀ (c : Char) (cs : List Char), isGoSpace c = false → isDec c = false →
      c ≠ '+' → c ≠ '-' → c ≠ '_' →
      parseIDFromURL (("/books/" : String) ++ String.mk (c :: cs)) =
        some (Except.error ())) ∧
    parseIDFromURL ("/books/") = some (Except.error ()) ∧
    parseIDFromURL ("/books/abc") = some (Except.error ()) ∧
    parseIDFromURL ("/books/010") = some (Except.ok 8) := by
  refine ⟨?_, ?_, by rfl, by rfl, by rfl⟩
  · intro c cs hall h0 hrange
    rw [parseIDFromURL_append, sscanInt64_decimal c cs hall h0 hrange]
  · intro c cs hsp hdec hplus hminus hund
    rw [parseIDFromURL_append, sscanInt64_nonNumeric c cs hsp hdec hplus hminus hund]

/-- C6 witness: a plain decimal suffix parses to its value. -/
theorem parseIDFromURL_scan_behavior_witness :
    parseIDFromURL (("/books/" : String) ++ String.mk ('1' :: '7' :: [])) =
      some (Except.ok 17) := by
  have h := parseIDFromURL_scan_behavior.1 '1' ('7' :: [])
    (by decide) (by decide) (by decide)
  rw [h]
  rfl
